import Mathlib

/-
Verification of the wiki scaffolder `create_wiki_structure.py`.

The script iterates a fixed 16-element list of page names; for each page it
derives a title (`os.path.splitext(page)[0].replace('-', ' ')`), renders a
fixed template by substituting the title for its single `{title}` placeholder,
writes the rendered text to a file named after the page, and prints a
`Created <page>` line.  After the loop it prints a fixed block of follow-up
instructions.  File contents are modelled as Lean `String`s (full Unicode
text, matching the script's UTF-8 encoding); the filesystem is modelled as a
partial map from filenames to contents; the run is modelled both as a
filesystem transformer and as an execution trace parameterised by a
writability oracle (which file writes succeed), so that failure propagation
and output ordering can be stated.
-/

set_option maxRecDepth 100000

namespace WikiScaffold

/-- The fixed list of wiki page names (the `pages` list in the script). -/
def pages : List String :=
  [ "Home.md",
    "Project-Structure.md",
    "Development-Setup.md",
    "Setup-VS-Code-Miniconda.md",
    "Setup-Ollama-Model.md",
    "Tools-Overview.md",
    "Guide-VS-Code.md",
    "Guide-Conda.md",
    "Guide-Ollama.md",
    "Guide-CrewAI.md",
    "Guide-Selenium.md",
    "Guide-BeautifulSoup.md",
    "Guide-AnythingLLM.md",
    "Guide-LangChain.md",
    "Guide-Docker.md",
    "Guide-WSL.md" ]

/-- The template string `placeholder_content` from the script, verbatim. -/
def placeholder_content : String :=
  "# {title}\n\n[This is a placeholder. Original content to be migrated.]\n\n## Navigation\n- [Home](Home)\n- [Project Structure](Project-Structure)\n- [Development Setup](Development-Setup)\n- [Tools Overview](Tools-Overview)\n"

/-- Index of the last occurrence of a character in a list, tracking the
current index; `none` when absent.  Helper for `splitext`. -/
def rfindIdxAux (c : Char) : List Char → Nat → Option Nat
  | [], _ => none
  | x :: xs, i =>
    match rfindIdxAux c xs (i + 1) with
    | some j => some j
    | none => if x = c then some i else none

/-- Index of the last occurrence of a character in a list (Python `rfind`). -/
def rfindIdx (c : Char) (l : List Char) : Option Nat :=
  rfindIdxAux c l 0

/-- Model of Python's `os.path.splitext` (posix variant): split off the
extension beginning at the last dot that comes after the last path separator,
unless every character of the basename before that dot is itself a dot
(leading dots do not start an extension). -/
def splitext (p : String) : String × String :=
  let l := p.data
  let sepIndex : Int :=
    match rfindIdx '/' l with
    | some i => (i : Int)
    | none => -1
  match rfindIdx '.' l with
  | none => (p, "")
  | some d =>
    if sepIndex < (d : Int) then
      let base := (l.drop (sepIndex + 1).toNat).take ((d : Int) - sepIndex - 1).toNat
      if base.any (fun c => c ≠ '.') then
        (String.mk (l.take d), String.mk (l.drop d))
      else (p, "")
    else (p, "")

/-- Model of Python's `str.replace(a, b)` for single characters: replace every
occurrence of `a` by `b`. -/
def pyReplace (s : String) (a b : Char) : String :=
  String.mk (s.data.map fun c => if c = a then b else c)

/-- The title derivation from the script:
`os.path.splitext(page)[0].replace('-', ' ')`. -/
def title (page : String) : String :=
  pyReplace (splitext page).1 '-' ' '

/-- Check that the first list is an initial segment of the second. -/
def leadMatch : List Char → List Char → Bool
  | [], _ => true
  | _ :: _, [] => false
  | p :: ps, c :: cs => p == c && leadMatch ps cs

/-- Substitute `val` for every occurrence of the (nonempty) `marker` in a
character list, scanning left to right; `skip` counts characters of a matched
marker still to be consumed. -/
def substMarker (marker val : List Char) : List Char → Nat → List Char
  | [], _ => []
  | _ :: rest, k + 1 => substMarker marker val rest k
  | c :: rest, 0 =>
    if leadMatch marker (c :: rest) then
      val ++ substMarker marker val rest (marker.length - 1)
    else c :: substMarker marker val rest 0

/-- Number of positions at which `pat` occurs in a character list. -/
def countOccur (pat : List Char) : List Char → Nat
  | [] => 0
  | c :: rest => (if leadMatch pat (c :: rest) then 1 else 0) + countOccur pat rest

/-- Model of `template.format(title=t)` for a template whose only replacement
field is `{title}` (as in `placeholder_content`): substitute `t` for every
occurrence of the placeholder. -/
def pyFormatTitle (tmpl t : String) : String :=
  String.mk (substMarker "{title}".data t.data tmpl.data 0)

/-- The content the script writes for a page:
`placeholder_content.format(title=title)`. -/
def rendered (page : String) : String :=
  pyFormatTitle placeholder_content (title page)

/-- Title derivation modelled from the spec's words, for comparison with the
code's `title`: remove the trailing file extension (everything from the last
dot on, when a dot exists), then replace every hyphen character by a space
character. -/
def titleSpec (page : String) : String :=
  let stripped :=
    match rfindIdx '.' page.data with
    | some d => String.mk (page.data.take d)
    | none => page
  pyReplace stripped '-' ' '

/-- C1: for every page name in the fixed list, the title the code derives
(`os.path.splitext(page)[0].replace('-', ' ')`) equals the spec's description:
the page name with its trailing extension removed and every hyphen replaced by
a space; in particular "Setup-VS-Code-Miniconda.md" yields
"Setup VS Code Miniconda". -/
theorem title_matches_spec (p : String) (hp : p ∈ pages) :
    title p = titleSpec p := by
  have h : ∀ q ∈ pages, title q = titleSpec q := by decide
  exact h p hp

/-- Witness for `title_matches_spec` at the spec's own example page. -/
theorem title_matches_spec_witness :
    "Setup-VS-Code-Miniconda.md" ∈ pages ∧
      title "Setup-VS-Code-Miniconda.md" = titleSpec "Setup-VS-Code-Miniconda.md" ∧
      title "Setup-VS-Code-Miniconda.md" = "Setup VS Code Miniconda" :=
  ⟨by decide, title_matches_spec "Setup-VS-Code-Miniconda.md" (by decide), by decide⟩

/-! Filesystem model.  A filesystem is a partial map from filenames to file
contents; `open(page, 'w', ...)` followed by `f.write(content)` replaces the
file's content wholesale. -/

/-- Effect of `with open(name, 'w') as f: f.write(content)` on a filesystem. -/
def writeFile (fs : String → Option String) (name content : String) :
    String → Option String :=
  fun n => if n = name then some content else fs n

/-- Effect of the script's `for page in pages` loop on a filesystem, for an
arbitrary page list: each iteration writes `rendered page` to `page`. -/
def runScaffoldOn (ps : List String) (fs : String → Option String) :
    String → Option String :=
  ps.foldl (fun acc page => writeFile acc page (rendered page)) fs

/-- The write trace of one successful run: the (filename, content) pairs in
the order the script writes them. -/
def writesList : List (String × String) :=
  pages.map fun p => (p, rendered p)

theorem runScaffoldOn_notMem (ps : List String) (fs : String → Option String)
    (n : String) (h : n ∉ ps) : runScaffoldOn ps fs n = fs n := by
  induction ps generalizing fs with
  | nil => rfl
  | cons p ps ih =>
    have hn : n ∉ ps := fun hm => h (List.mem_cons_of_mem _ hm)
    have hne : n ≠ p := fun he => h (he ▸ List.mem_cons_self _ _)
    simp only [runScaffoldOn, List.foldl] at *
    rw [ih _ hn, writeFile, if_neg hne]

theorem runScaffoldOn_mem (ps : List String) (fs : String → Option String)
    (n : String) (h : n ∈ ps) : runScaffoldOn ps fs n = some (rendered n) := by
  induction ps generalizing fs with
  | nil => exact absurd h (List.not_mem_nil n)
  | cons p ps ih =>
    by_cases hn : n ∈ ps
    · simpa only [runScaffoldOn, List.foldl] using ih _ hn
    · have hne : n = p := by
        rcases List.mem_cons.mp h with he | hm
        · exact he
        · exact absurd hm hn
      have hfold := runScaffoldOn_notMem ps (writeFile fs p (rendered p)) n hn
      simp only [runScaffoldOn, List.foldl] at hfold ⊢
      rw [hfold, writeFile, if_pos hne, hne]

/-- C2: every one of the 16 fixed page names gets exactly one write, to a file
whose name is exactly the page name, and after a run (from any starting
filesystem) that file's entire content is the shared template with the derived
title substituted for its single `\x7btitle\x7d` placeholder.  Contents are
Lean strings, i.e. full-Unicode text as UTF-8 provides. -/
theorem scaffold_creates_files (fs : String → Option String) (p : String)
    (hp : p ∈ pages) :
    runScaffoldOn pages fs p = some (pyFormatTitle placeholder_content (title p)) ∧
      (writesList.filter (fun w => w.1 == p)).length = 1 ∧
      countOccur "{title}".data placeholder_content.data = 1 := by
  refine ⟨runScaffoldOn_mem pages fs p hp, ?_, by decide⟩
  have h : ∀ q ∈ pages, (writesList.filter (fun w => w.1 == q)).length = 1 := by decide
  exact h p hp

/-- Witness for `scaffold_creates_files` at page "Home.md" over the empty
filesystem. -/
theorem scaffold_creates_files_witness :
    "Home.md" ∈ pages ∧
      (runScaffoldOn pages (fun _ => none) "Home.md" =
          some (pyFormatTitle placeholder_content (title "Home.md")) ∧
        (writesList.filter (fun w => w.1 == "Home.md")).length = 1 ∧
        countOccur "{title}".data placeholder_content.data = 1) :=
  ⟨by decide, scaffold_creates_files (fun _ => none) "Home.md" (by decide)⟩

/-! String inspection helpers for stating properties of the rendered text. -/

/-- True when `pat` occurs (as a contiguous run) somewhere in the list. -/
def occursIn (pat : List Char) : List Char → Bool
  | [] => leadMatch pat []
  | c :: cs => leadMatch pat (c :: cs) || occursIn pat cs

/-- Split a character list at every occurrence of `sep` (Python
`str.split(sep)` for a single character). -/
def splitOnChar (sep : Char) : List Char → List (List Char)
  | [] => [[]]
  | c :: rest =>
    if c == sep then [] :: splitOnChar sep rest
    else
      match splitOnChar sep rest with
      | [] => [[c]]
      | l :: ls => (c :: l) :: ls

/-- The lines of a string, splitting at every newline character. -/
def strLines (s : String) : List String :=
  (splitOnChar '\n' s.data).map String.mk

/-- True when `suf` is a trailing segment of `s`. -/
def strEndsWith (s suf : String) : Bool :=
  leadMatch suf.data.reverse s.data.reverse

/-- The navigation block that the template embeds verbatim (the part of
`placeholder_content` from the `## Navigation` heading on). -/
def navBlock : String :=
  "## Navigation\n- [Home](Home)\n- [Project Structure](Project-Structure)\n- [Development Setup](Development-Setup)\n- [Tools Overview](Tools-Overview)\n"

/-- C3: every generated file's content contains the identical navigation
block, independent of the page: the `## Navigation` heading followed by
exactly four links labelled Home, Project Structure, Development Setup and
Tools Overview, each targeting the corresponding page name without its
extension. -/
theorem nav_block_identical (p : String) (hp : p ∈ pages) :
    occursIn navBlock.data (rendered p).data = true ∧
      strLines navBlock =
        ["## Navigation", "- [Home](Home)", "- [Project Structure](Project-Structure)",
          "- [Development Setup](Development-Setup)", "- [Tools Overview](Tools-Overview)",
          ""] := by
  refine ⟨?_, by decide⟩
  have h : ∀ q ∈ pages, occursIn navBlock.data (rendered q).data = true := by decide
  exact h p hp

/-- Witness for `nav_block_identical` at page "Guide-Conda.md". -/
theorem nav_block_identical_witness :
    "Guide-Conda.md" ∈ pages ∧
      (occursIn navBlock.data (rendered "Guide-Conda.md").data = true ∧
        strLines navBlock =
          ["## Navigation", "- [Home](Home)", "- [Project Structure](Project-Structure)",
            "- [Development Setup](Development-Setup)", "- [Tools Overview](Tools-Overview)",
            ""]) :=
  ⟨by decide, nav_block_identical "Guide-Conda.md" (by decide)⟩

/-- C4: the file generated for page "Home.md" has first line `# Home`,
followed by a blank line, the placeholder notice line, a blank line, the
`## Navigation` heading and the four link lines labelled Home, Project
Structure, Development Setup and Tools Overview. -/
theorem home_page_layout :
    strLines (rendered "Home.md") =
      ["# Home", "", "[This is a placeholder. Original content to be migrated.]", "",
        "## Navigation", "- [Home](Home)", "- [Project Structure](Project-Structure)",
        "- [Development Setup](Development-Setup)", "- [Tools Overview](Tools-Overview)",
        ""] := by
  decide

/-- C5: running the scaffolder twice in succession is idempotent: for every
filename, the filesystem after the second run agrees with the filesystem after
the first run, byte for byte. -/
theorem scaffold_idempotent (fs : String → Option String) (n : String) :
    runScaffoldOn pages (runScaffoldOn pages fs) n = runScaffoldOn pages fs n := by
  by_cases h : n ∈ pages
  · rw [runScaffoldOn_mem _ _ _ h, runScaffoldOn_mem _ _ _ h]
  · rw [runScaffoldOn_notMem _ _ _ h, runScaffoldOn_notMem _ _ _ h]

/-! Execution-trace model.  The run is parameterised by a writability oracle
saying which file writes succeed.  A failing `open`/`write` raises an uncaught
`OSError`: the loop stops, no further `print` reaches stdout, the trailing
instruction block is never printed, and the interpreter exits with status 1
(the traceback goes to stderr, which is not modelled). -/

/-- The arguments of the trailing `print` calls of the script, in order (each
`print` appends a newline to its argument). -/
def nextStepsPrints : List String :=
  [ "\nNext steps:",
    "1. Initialize git repository:",
    "   git init",
    "2. Add all files:",
    "   git add .",
    "3. Make initial commit:",
    "   git commit -m \"Initial wiki structure with valid filenames\"",
    "4. Add GitHub wiki remote:",
    "   git remote add origin https://github.com/markvshaney/LLM_Project.wiki.git",
    "5. Push to GitHub (you may need to force push):",
    "   git push -f origin master" ]

/-- The progress line printed after each successful write
(`print(f"Created \x7bpage\x7d")`). -/
def createdLine (page : String) : String :=
  "Created " ++ page

/-- Trace of the script on a page list: (files written in order, stdout print
calls in order, exit status). -/
def scaffoldAux (canWrite : String → Bool) :
    List String → List String × List String × Nat
  | [] => ([], nextStepsPrints, 0)
  | p :: ps =>
    if canWrite p then
      let r := scaffoldAux canWrite ps
      (p :: r.1, createdLine p :: r.2.1, r.2.2)
    else ([], [], 1)

/-- Trace of one full run of the script. -/
def scaffoldRun (canWrite : String → Bool) : List String × List String × Nat :=
  scaffoldAux canWrite pages

theorem scaffoldAux_success (canWrite : String → Bool) (ps : List String)
    (h : ∀ p ∈ ps, canWrite p = true) :
    scaffoldAux canWrite ps = (ps, ps.map createdLine ++ nextStepsPrints, 0) := by
  induction ps with
  | nil => rfl
  | cons p ps ih =>
    have hp : canWrite p = true := h p (List.mem_cons_self _ _)
    have hps : ∀ q ∈ ps, canWrite q = true := fun q hq => h q (List.mem_cons_of_mem _ hq)
    simp [scaffoldAux, hp, ih hps]

theorem scaffoldAux_fail (canWrite : String → Bool) (ps : List String)
    (h : ∃ p ∈ ps, canWrite p = false) :
    scaffoldAux canWrite ps =
      (ps.takeWhile canWrite, (ps.takeWhile canWrite).map createdLine, 1) := by
  induction ps with
  | nil =>
    rcases h with ⟨p, hp, _⟩
    exact absurd hp (List.not_mem_nil p)
  | cons p ps ih =>
    by_cases hp : canWrite p = true
    · have hx : ∃ q ∈ ps, canWrite q = false := by
        rcases h with ⟨q, hq, hqf⟩
        rcases List.mem_cons.mp hq with he | hm
        · rw [he] at hqf
          rw [hqf] at hp
          exact absurd hp (by simp)
        · exact ⟨q, hm, hqf⟩
      simp [scaffoldAux, hp, ih hx, List.takeWhile_cons]
    · have hp' : canWrite p = false := by
        cases hcw : canWrite p
        · rfl
        · exact absurd hcw hp
      simp [scaffoldAux, hp', List.takeWhile_cons]

/-- C6: if some file write fails, the failure is not caught: the exit status
is nonzero (1), the files actually written are exactly the longest writable
prefix of the page list, and stdout holds exactly one Created line per file
actually written — so no Created line for unperformed work, and the final
instruction block never appears. -/
theorem scaffold_failure (canWrite : String → Bool)
    (h : ∃ p ∈ pages, canWrite p = false) :
    (scaffoldRun canWrite).2.2 = 1 ∧
      (scaffoldRun canWrite).1 = pages.takeWhile canWrite ∧
      (scaffoldRun canWrite).2.1 = (pages.takeWhile canWrite).map createdLine := by
  have hs : scaffoldRun canWrite =
      (pages.takeWhile canWrite, (pages.takeWhile canWrite).map createdLine, 1) :=
    scaffoldAux_fail canWrite pages h
  rw [hs]
  exact ⟨rfl, rfl, rfl⟩

/-- Witness for `scaffold_failure`: a run whose fifth write fails. -/
theorem scaffold_failure_witness :
    (scaffoldRun (fun p => !(p == "Setup-Ollama-Model.md"))).2.2 = 1 ∧
      (scaffoldRun (fun p => !(p == "Setup-Ollama-Model.md"))).1 =
        pages.takeWhile (fun p => !(p == "Setup-Ollama-Model.md")) ∧
      (scaffoldRun (fun p => !(p == "Setup-Ollama-Model.md"))).2.1 =
        (pages.takeWhile (fun p => !(p == "Setup-Ollama-Model.md"))).map createdLine :=
  scaffold_failure (fun p => !(p == "Setup-Ollama-Model.md"))
    ⟨"Setup-Ollama-Model.md", by decide, by decide⟩

/-- C7: on a fully successful run the pages are processed strictly in list
order: the files written are exactly the 16 pages in order, stdout is one
Created line per page in list order followed (only after all 16) by the fixed
instruction block, and the exit status is 0; the trace contains no effect
other than these file writes and prints — in particular no version-control
action is executed. -/
theorem scaffold_success_order (canWrite : String → Bool)
    (h : ∀ p ∈ pages, canWrite p = true) :
    scaffoldRun canWrite = (pages, pages.map createdLine ++ nextStepsPrints, 0) :=
  scaffoldAux_success canWrite pages h

/-- Witness for `scaffold_success_order` with every write succeeding. -/
theorem scaffold_success_order_witness :
    scaffoldRun (fun _ => true) =
      (pages, pages.map createdLine ++ nextStepsPrints, 0) :=
  scaffold_success_order (fun _ => true) (by decide)

/-- C8: the program is input-free and deterministic: whenever the environment
permits all writes, two runs — under possibly different writability oracles
and over possibly different starting filesystems — produce identical traces
(written files, stdout, exit status) and identical contents for every page
file. -/
theorem scaffold_deterministic (e1 e2 : String → Bool)
    (fs1 fs2 : String → Option String) (p : String)
    (h1 : ∀ q ∈ pages, e1 q = true) (h2 : ∀ q ∈ pages, e2 q = true)
    (hp : p ∈ pages) :
    scaffoldRun e1 = scaffoldRun e2 ∧
      runScaffoldOn pages fs1 p = runScaffoldOn pages fs2 p := by
  constructor
  · rw [scaffold_success_order e1 h1, scaffold_success_order e2 h2]
  · rw [runScaffoldOn_mem _ _ _ hp, runScaffoldOn_mem _ _ _ hp]

/-- Witness for `scaffold_deterministic`: two different all-permitting oracles
and two different starting filesystems agree on the trace and on the content
of "Guide-WSL.md". -/
theorem scaffold_deterministic_witness :
    scaffoldRun (fun _ => true) = scaffoldRun (fun s => !(s == "absent.md")) ∧
      runScaffoldOn pages (fun _ => none) "Guide-WSL.md" =
        runScaffoldOn pages (fun _ => some "stale") "Guide-WSL.md" :=
  scaffold_deterministic (fun _ => true) (fun s => !(s == "absent.md"))
    (fun _ => none) (fun _ => some "stale") "Guide-WSL.md"
    (by decide) (by decide) (by decide)

/-- C9: the 16 hardcoded page names are pairwise distinct, there are exactly
16 of them, and a single run writes each output filename exactly once (the
write trace's filenames are exactly the page list, which has no duplicate). -/
theorem pages_distinct :
    pages.Nodup ∧ pages.length = 16 ∧ writesList.map Prod.fst = pages :=
  ⟨by decide, by decide, by decide⟩

/-- C10: for every page name in the fixed list the derived title is nonempty,
contains no hyphen character, and does not end in ".md". -/
theorem title_shape (p : String) (hp : p ∈ pages) :
    ¬title p = "" ∧ (title p).data.contains '-' = false ∧
      strEndsWith (title p) ".md" = false := by
  have h : ∀ q ∈ pages, ¬title q = "" ∧ (title q).data.contains '-' = false ∧
      strEndsWith (title q) ".md" = false := by decide
  exact h p hp

/-- Witness for `title_shape` at page "Guide-BeautifulSoup.md". -/
theorem title_shape_witness :
    "Guide-BeautifulSoup.md" ∈ pages ∧
      (¬title "Guide-BeautifulSoup.md" = "" ∧
        (title "Guide-BeautifulSoup.md").data.contains '-' = false ∧
        strEndsWith (title "Guide-BeautifulSoup.md") ".md" = false) :=
  ⟨by decide, title_shape "Guide-BeautifulSoup.md" (by decide)⟩

end WikiScaffold
